import Mathlib

/-!
Verification of the metadata capture / codec / persistence pipeline of the
rkyv-codec repository (src/lib.rs, src/meta.rs, src/codec.rs, src/wrappers.rs).

Modelling conventions:
* Byte strings (`OsString`, `Vec<u8>`, `CString` contents, `PathBuf`) are
  `List Nat` of byte values.  A `CString` is represented by the bytes before
  its terminating NUL.
* Machine integers of the stat record are modelled as `Int`; the code only
  copies them (no arithmetic), so no wrap-around modelling is needed.
* Fallible Rust functions returning `Result<T, i32>` become
  `Except Int T` / `Outcome Int T`, where `Outcome` additionally has a `ub`
  constructor for executions of the source that run into undefined behavior
  (a `CString::from_raw(NULL)`, which performs `strlen` on a null pointer).
-/

/-- Result of running a piece of Rust code: a normal value, a returned error
value, or undefined behavior (the code dereferenced a null pointer or
similar, so no defined result exists). -/
inductive Outcome (ε α : Type) where
  | ok (a : α)
  | err (e : ε)
  | ub
  deriving DecidableEq, Repr

/- ### Byte-format primitives for the modelled archive format

The rkyv archive format itself is produced by derive macros that are not part
of the repository sources; the spec only requires a self-describing buffer
that decodes back to the original values.  The model uses a simple
length-prefixed field concatenation; `serialize_value` below says which
fields are written and which conversions can fail, following src/codec.rs and
src/meta.rs. -/

def writeNat (n : Nat) : List Nat := [n]

def readNat : List Nat → Option (Nat × List Nat)
  | [] => none
  | n :: s => some (n, s)

def writeInt : Int → List Nat
  | .ofNat n => [0, n]
  | .negSucc n => [1, n]

def readInt : List Nat → Option (Int × List Nat)
  | 0 :: n :: s => some (.ofNat n, s)
  | 1 :: n :: s => some (.negSucc n, s)
  | _ => none

def writeBytes (xs : List Nat) : List Nat := xs.length :: xs

def readBytes : List Nat → Option (List Nat × List Nat)
  | [] => none
  | n :: s => if n ≤ s.length then some (s.take n, s.drop n) else none

/- ### The native stat record and its normalized shape (src/codec.rs 102-146)

`FileStat` mirrors `libc::stat` on x86_64-linux: the public fields plus the
private reserved fields `__pad0 : c_int` and `__unused : [i64; 3]`.
`FileStatCodec` is the normalized shape from src/codec.rs; its derive reads
every public field from the native record and uses the getters
`__get_pad0` / `__get_unused` (constant zero) for the reserved fields. -/

structure FileStat where
  st_dev : Int
  st_ino : Int
  st_nlink : Int
  st_mode : Int
  st_uid : Int
  st_gid : Int
  __pad0 : Int
  st_rdev : Int
  st_size : Int
  st_blksize : Int
  st_blocks : Int
  st_atime : Int
  st_atime_nsec : Int
  st_mtime : Int
  st_mtime_nsec : Int
  st_ctime : Int
  st_ctime_nsec : Int
  __unused : Int × Int × Int
  deriving DecidableEq, Repr

structure FileStatCodec where
  st_dev : Int
  st_ino : Int
  st_nlink : Int
  st_mode : Int
  st_uid : Int
  st_gid : Int
  __pad0 : Int
  st_rdev : Int
  st_size : Int
  st_blksize : Int
  st_blocks : Int
  st_atime : Int
  st_atime_nsec : Int
  st_mtime : Int
  st_mtime_nsec : Int
  st_ctime : Int
  st_ctime_nsec : Int
  __unused : Int × Int × Int
  deriving DecidableEq, Repr

/-- The ArchiveWith mapping of src/codec.rs 102-136: each public field is read
from the native record; `__pad0` and `__unused` come from the getters
`FileStatCodec::__get_pad0` and `FileStatCodec::__get_unused`, which return
zero regardless of the native record. -/
def statToCodec (s : FileStat) : FileStatCodec :=
  { st_dev := s.st_dev, st_ino := s.st_ino, st_nlink := s.st_nlink,
    st_mode := s.st_mode, st_uid := s.st_uid, st_gid := s.st_gid,
    __pad0 := 0, st_rdev := s.st_rdev, st_size := s.st_size,
    st_blksize := s.st_blksize, st_blocks := s.st_blocks,
    st_atime := s.st_atime, st_atime_nsec := s.st_atime_nsec,
    st_mtime := s.st_mtime, st_mtime_nsec := s.st_mtime_nsec,
    st_ctime := s.st_ctime, st_ctime_nsec := s.st_ctime_nsec,
    __unused := (0, 0, 0) }

/-- The impl `From<FileStatCodec> for libc::stat` (src/codec.rs 138-146): a transmute of
the normalized shape into the native record (the declared field lists coincide
field-for-field in order and width, which is what the transmute assumes), then
three self-assignments that change nothing.  Modelled as the field-wise copy
the transmute performs under that layout assumption. -/
def codecToStat (c : FileStatCodec) : FileStat :=
  { st_dev := c.st_dev, st_ino := c.st_ino, st_nlink := c.st_nlink,
    st_mode := c.st_mode, st_uid := c.st_uid, st_gid := c.st_gid,
    __pad0 := c.__pad0, st_rdev := c.st_rdev, st_size := c.st_size,
    st_blksize := c.st_blksize, st_blocks := c.st_blocks,
    st_atime := c.st_atime, st_atime_nsec := c.st_atime_nsec,
    st_mtime := c.st_mtime, st_mtime_nsec := c.st_mtime_nsec,
    st_ctime := c.st_ctime, st_ctime_nsec := c.st_ctime_nsec,
    __unused := c.__unused }

/- ### UTF-8 validity (the check behind rkyv's AsString wrapper)

`#[with(AsString)]` on `OsString` / `PathBuf` fields converts the bytes to a
`&str` during serialization and raises `AsStringError` when the bytes are not
valid UTF-8 (src/codec.rs 90-94 lifts that error into the codec error type).
Standard RFC 3629 byte-range validation. -/

def utf8Cont (b : Nat) : Bool := 128 ≤ b && b ≤ 191

def utf8Valid : List Nat → Bool
  | [] => true
  | b :: rest =>
    if b ≤ 127 then utf8Valid rest
    else if 194 ≤ b && b ≤ 223 then
      match rest with
      | c1 :: rest2 => utf8Cont c1 && utf8Valid rest2
      | [] => false
    else if b == 224 then
      match rest with
      | c1 :: c2 :: rest2 => (160 ≤ c1 && c1 ≤ 191) && utf8Cont c2 && utf8Valid rest2
      | _ => false
    else if 225 ≤ b && b ≤ 236 then
      match rest with
      | c1 :: c2 :: rest2 => utf8Cont c1 && utf8Cont c2 && utf8Valid rest2
      | _ => false
    else if b == 237 then
      match rest with
      | c1 :: c2 :: rest2 => (128 ≤ c1 && c1 ≤ 159) && utf8Cont c2 && utf8Valid rest2
      | _ => false
    else if 238 ≤ b && b ≤ 239 then
      match rest with
      | c1 :: c2 :: rest2 => utf8Cont c1 && utf8Cont c2 && utf8Valid rest2
      | _ => false
    else if b == 240 then
      match rest with
      | c1 :: c2 :: c3 :: rest2 =>
        (144 ≤ c1 && c1 ≤ 191) && utf8Cont c2 && utf8Cont c3 && utf8Valid rest2
      | _ => false
    else if 241 ≤ b && b ≤ 243 then
      match rest with
      | c1 :: c2 :: c3 :: rest2 =>
        utf8Cont c1 && utf8Cont c2 && utf8Cont c3 && utf8Valid rest2
      | _ => false
    else if b == 244 then
      match rest with
      | c1 :: c2 :: c3 :: rest2 =>
        (128 ≤ c1 && c1 ≤ 143) && utf8Cont c2 && utf8Cont c3 && utf8Valid rest2
      | _ => false
    else false

/- ### Identity records (nix::unistd::User / Group, archived through
UserCodec / GroupCodec of src/codec.rs 148-198)

`name` is a Rust `String` (always valid UTF-8 by construction); `passwd` and
`gecos` are `CString` contents; `dir` and `shell` are `PathBuf` bytes that the
UserCodec archives through `AsString` (so they must be valid UTF-8 to encode).
Field order follows the source structs. -/

structure Nix.User where
  name : List Nat
  passwd : List Nat
  uid : Int
  gid : Int
  gecos : List Nat
  dir : List Nat
  shell : List Nat
  deriving DecidableEq, Repr

structure Nix.Group where
  name : List Nat
  passwd : List Nat
  gid : Int
  mem : List (List Nat)
  deriving DecidableEq, Repr

/-- The metadata record of src/meta.rs 34-55.  `name : OsString` and
`parent : PathBuf` are byte strings archived through `AsString`; `xattrs`
pairs a `CString` attribute name with its raw byte value.  The `_fs`
PhantomData field carries no data and is skipped by the archiver
(`rkyv::with::Skip`), so it is omitted. -/
structure EntryMetaData where
  name : List Nat
  parent : List Nat
  stats : FileStat
  owner : Nix.User
  group : Nix.Group
  timestamp : Nat
  xattrs : Option (List (List Nat × List Nat))
  deriving DecidableEq, Repr

/-- Model of `CString::from_vec_with_nul` (used in src/meta.rs 107-108 and 116):
succeeds only when the vector ends with a NUL byte and has no interior NUL;
the resulting C string's contents are the bytes before that NUL. -/
def from_vec_with_nul (v : List Nat) : Option (List Nat) :=
  if v.getLast? = some 0 ∧ ¬ 0 ∈ v.dropLast then some v.dropLast else none

/-- The fixed credential placeholder written into `owner.passwd` and
`group.passwd` by src/meta.rs 107-108: `CString::from_vec_with_nul(b"x\x00")`;
the unwrap there never fires because the vector is well-formed. -/
def xPlaceholder : List Nat := (from_vec_with_nul [120, 0]).getD []

/- ### Serializing the remaining compound fields -/

def writeList : List (List Nat) → List Nat
  | [] => []
  | x :: t => writeBytes x ++ writeList t

def writeListBytes (l : List (List Nat)) : List Nat := l.length :: writeList l

def readListAux : Nat → List Nat → Option (List (List Nat) × List Nat)
  | 0, s => some ([], s)
  | k + 1, s =>
    match readBytes s with
    | none => none
    | some (x, s) =>
      match readListAux k s with
      | none => none
      | some (t, s) => some (x :: t, s)

def readList (s : List Nat) : Option (List (List Nat) × List Nat) :=
  match readNat s with
  | none => none
  | some (k, s) => readListAux k s

def writePairs : List (List Nat × List Nat) → List Nat
  | [] => []
  | (x, v) :: t => writeBytes x ++ writeBytes v ++ writePairs t

def writeXattrs : Option (List (List Nat × List Nat)) → List Nat
  | none => [0]
  | some l => 1 :: l.length :: writePairs l

def readPairsAux : Nat → List Nat → Option (List (List Nat × List Nat) × List Nat)
  | 0, s => some ([], s)
  | k + 1, s =>
    match readBytes s with
    | none => none
    | some (x, s) =>
      match readBytes s with
      | none => none
      | some (v, s) =>
        match readPairsAux k s with
        | none => none
        | some (t, s) => some ((x, v) :: t, s)

def readXattrs : List Nat → Option (Option (List (List Nat × List Nat)) × List Nat)
  | 0 :: s => some (none, s)
  | 1 :: k :: s =>
    match readPairsAux k s with
    | none => none
    | some (l, s) => some (some l, s)
  | _ => none

def writeInts : List Int → List Nat
  | [] => []
  | i :: t => writeInt i ++ writeInts t

def readInts : Nat → List Nat → Option (List Int × List Nat)
  | 0, s => some ([], s)
  | k + 1, s =>
    match readInt s with
    | none => none
    | some (i, s) =>
      match readInts k s with
      | none => none
      | some (t, s) => some (i :: t, s)

def statCFields (c : FileStatCodec) : List Int :=
  [c.st_dev, c.st_ino, c.st_nlink, c.st_mode, c.st_uid, c.st_gid, c.__pad0,
   c.st_rdev, c.st_size, c.st_blksize, c.st_blocks, c.st_atime,
   c.st_atime_nsec, c.st_mtime, c.st_mtime_nsec, c.st_ctime, c.st_ctime_nsec,
   c.__unused.1, c.__unused.2.1, c.__unused.2.2]

def writeStatC (c : FileStatCodec) : List Nat := writeInts (statCFields c)

def statCFromList (l : List Int) : FileStatCodec :=
  { st_dev := l.getD 0 0, st_ino := l.getD 1 0, st_nlink := l.getD 2 0,
    st_mode := l.getD 3 0, st_uid := l.getD 4 0, st_gid := l.getD 5 0,
    __pad0 := l.getD 6 0, st_rdev := l.getD 7 0, st_size := l.getD 8 0,
    st_blksize := l.getD 9 0, st_blocks := l.getD 10 0, st_atime := l.getD 11 0,
    st_atime_nsec := l.getD 12 0, st_mtime := l.getD 13 0,
    st_mtime_nsec := l.getD 14 0, st_ctime := l.getD 15 0,
    st_ctime_nsec := l.getD 16 0,
    __unused := (l.getD 17 0, l.getD 18 0, l.getD 19 0) }

def readStatC (s : List Nat) : Option (FileStatCodec × List Nat) :=
  match readInts 20 s with
  | none => none
  | some (l, s) => some (statCFromList l, s)

/- ### Identity-record serialization (UserCodec / GroupCodec field order) -/

def writeUser (u : Nix.User) : List Nat :=
  writeBytes u.name ++ writeBytes u.passwd ++ writeInt u.uid ++ writeInt u.gid ++
  writeBytes u.gecos ++ writeBytes u.dir ++ writeBytes u.shell

def readUser (s : List Nat) : Option (Nix.User × List Nat) := do
  let (n, s) ← readBytes s
  let (pw, s) ← readBytes s
  let (u, s) ← readInt s
  let (g, s) ← readInt s
  let (ge, s) ← readBytes s
  let (d, s) ← readBytes s
  let (sh, s) ← readBytes s
  some ({ name := n, passwd := pw, uid := u, gid := g, gecos := ge,
          dir := d, shell := sh }, s)

def writeGroup (g : Nix.Group) : List Nat :=
  writeBytes g.name ++ writeBytes g.passwd ++ writeInt g.gid ++
  writeListBytes g.mem

def readGroup (s : List Nat) : Option (Nix.Group × List Nat) := do
  let (n, s) ← readBytes s
  let (pw, s) ← readBytes s
  let (gi, s) ← readInt s
  let (m, s) ← readList s
  some ({ name := n, passwd := pw, gid := gi, mem := m }, s)

/- ### The fallible encoder (src/codec.rs 6-95, src/meta.rs 149-155)

`CodecSerializerError<E>` is the two-variant error type of src/codec.rs 84-88.
`serialize_value` models serializing an `EntryMetaData` through
`CodecSerializer`: the archive visits the fields in declaration order and the
`AsString` conversions (`name`, `parent`, and the owner's `dir` / `shell`
paths) fail with `AsStringError` on non-UTF-8 bytes.  The inner
`AllocSerializer` error (`Inner`) is an allocation failure; allocation is not
modelled (memory is unbounded), so `Inner` never arises here. -/

inductive CodecSerializerError (E : Type) where
  | Inner (e : E)
  | AsStringError
  deriving DecidableEq, Repr

def serialize_value (r : EntryMetaData) :
    Except (CodecSerializerError Unit) (List Nat) :=
  if !utf8Valid r.name then .error .AsStringError
  else if !utf8Valid r.parent then .error .AsStringError
  else if !utf8Valid r.owner.dir then .error .AsStringError
  else if !utf8Valid r.owner.shell then .error .AsStringError
  else .ok (writeBytes r.name ++ writeBytes r.parent ++
            writeStatC (statToCodec r.stats) ++ writeUser r.owner ++
            writeGroup r.group ++ writeNat r.timestamp ++
            writeXattrs r.xattrs)

/-- Result of `CodecSerializer::encode` as the caller observes it.  The source
(src/codec.rs 44-52) calls `serializer.serialize_value(value).unwrap()`: a
serialization error aborts the process instead of being returned, so the
function either returns `Ok(buffer)` or never returns (`panicked`).  The
declared `Result` error path is dead code. -/
inductive EncodeOutcome (E : Type) where
  | ok (bytes : List Nat)
  | panicked (e : CodecSerializerError E)
  deriving DecidableEq, Repr

def CodecSerializer.encode (r : EntryMetaData) : EncodeOutcome Unit :=
  match serialize_value r with
  | .ok b => .ok b
  | .error e => .panicked e

/-- The method `EntryMetaData::to_bytes` (src/meta.rs 149-155): runs the encoder and
wraps the buffer in `Ok`; the surrounding `Result<Vec<u8>, i32>` is always
`Ok` whenever the function returns, because the encode error was already
unwrapped inside `encode`. -/
def EntryMetaData.to_bytes (r : EntryMetaData) : EncodeOutcome Unit :=
  CodecSerializer.encode r

/-- Decoding an archived buffer back into an owned record (the
`archived_root` + `deserialize` path exercised by the repository's
test_metadata test): read the fields back in declaration order; the stat
record is rebuilt from the normalized shape via the `From` conversion. -/
def decodeRecord (s : List Nat) : Option EntryMetaData := do
  let (nm, s) ← readBytes s
  let (pr, s) ← readBytes s
  let (c, s) ← readStatC s
  let (ow, s) ← readUser s
  let (gp, s) ← readGroup s
  let (ts, s) ← readNat s
  let (xa, _) ← readXattrs s
  some { name := nm, parent := pr, stats := codecToStat c, owner := ow,
         group := gp, timestamp := ts, xattrs := xa }

/- ### Syscall boundary (src/wrappers.rs)

`getxattrW path name value` models `wrappers::getxattr` where `value` is the
raw byte value the OS holds for that attribute: the path and name must convert
to C strings (EINVAL = 22 on an interior NUL, the `into_cstring!` macro); the
syscall fills a fixed `PATH_MAX`-sized zeroed buffer and fails with
ERANGE = 34 when the value is larger; the result is then read back with
`CStr::from_ptr`, which takes the bytes up to the first NUL.  When the value
fills the buffer exactly and contains no NUL, `CStr::from_ptr` scans past the
end of the buffer: undefined behavior. -/

def PATH_MAX : Nat := 4096

def takeUntilZero : List Nat → List Nat
  | [] => []
  | 0 :: _ => []
  | b :: r => b :: takeUntilZero r

def getxattrW (path name value : List Nat) : Outcome Int (List Nat) :=
  if 0 ∈ path then .err 22
  else if 0 ∈ name then .err 22
  else if PATH_MAX < value.length then .err 34
  else if value.length = PATH_MAX ∧ ¬ 0 ∈ value then .ub
  else .ok (takeUntilZero value)

/-- The value stored into the captured record for one attribute
(src/meta.rs 123): `wrappers::getxattr(path, name).unwrap_or(Vec::new())` —
a returned error becomes the empty value.  (The `ub` case has no defined
result in the source; it is mapped to `[]` here but never reached by the
theorems below.) -/
def storedOf : Outcome Int (List Nat) → List Nat
  | .ok v => v
  | .err _ => []
  | .ub => []

/-- Model of `slice::split` on the NUL byte, as used on the listxattr name buffer
(src/meta.rs 115): pieces between separators, separator bytes dropped, with a
trailing empty piece when the buffer ends in NUL. -/
def splitOnZero : List Nat → List (List Nat)
  | [] => [[]]
  | 0 :: rest => [] :: splitOnZero rest
  | b :: rest =>
    match splitOnZero rest with
    | h :: t => (b :: h) :: t
    | [] => [[b]]

/- ### Metadata capture (src/meta.rs 75-147)

The OS and BackStore behaviors that `EntryMetaData::new` consults are
abstracted into an environment: the resolved physical path, the stat result,
the identity database, the raw listxattr name buffer and the raw per-name
attribute values, and the clock. -/

structure SysEnv where
  highest_path : List Nat → Except Int (List Nat)
  stat : List Nat → Except Int FileStat
  from_uid : Int → Except Int (Option Nix.User)
  from_gid : Int → Except Int (Option Nix.Group)
  listbuf : List Nat → Except Int (List Nat)
  xattrValue : List Nat → List Nat → List Nat
  now : Nat

def pathJoin (p c : List Nat) : List Nat := p ++ [47] ++ c

/-- The xattr collection of src/meta.rs 110-130: probe `listxattr` for the
required size (an error counts as size 0); when it is zero the record holds
`none`; otherwise split the name buffer on NUL, convert each piece with
`CString::from_vec_with_nul` keeping only the successes, and pair each
surviving name with `getxattr(path, name).unwrap_or(vec![])`. -/
def captureXattrs (env : SysEnv) (path : List Nat) :
    Option (List (List Nat × List Nat)) :=
  let xattrs_len := match env.listbuf path with
    | .ok buf => buf.length
    | .error _ => 0
  if xattrs_len > 0 then
    let buf := match env.listbuf path with
      | .ok b => b
      | .error _ => []
    let names := (splitOnZero buf).filterMap from_vec_with_nul
    some (names.map fun n => (n, storedOf (getxattrW path n (env.xattrValue path n))))
  else none

/-- The capture operation `EntryMetaData::new` (src/meta.rs 75-147).  The `ub` outcomes are the
identity-lookup misses: the `unwrap_or_else` placeholder constructs its
`passwd` and `gecos` fields with `CString::from_raw(ptr::null_mut())`
(src/meta.rs 90, 94, 103), and `CString::from_raw` immediately runs `strlen`
on the pointer — on NULL that is undefined behavior, so the placeholder path
never produces a value.  On the resolved path both credential fields are then
unconditionally overwritten with the `"x"` placeholder (src/meta.rs 107-108)
before the record is assembled. -/
def EntryMetaData.new (env : SysEnv) (parent name : List Nat) :
    Outcome Int EntryMetaData :=
  match env.highest_path (pathJoin parent name) with
  | .error e => .err e
  | .ok path =>
    match env.stat path with
    | .error e => .err e
    | .ok stats =>
      match env.from_uid stats.st_uid with
      | .error e => .err e
      | .ok none => .ub
      | .ok (some owner0) =>
        match env.from_gid stats.st_gid with
        | .error e => .err e
        | .ok none => .ub
        | .ok (some group0) =>
          let owner := { owner0 with passwd := xPlaceholder }
          let group := { group0 with passwd := xPlaceholder }
          .ok { name := name, parent := parent, stats := stats, owner := owner,
                group := group, timestamp := env.now,
                xattrs := captureXattrs env path }

/- ### Metadata store (src/meta.rs 156-177, src/lib.rs 34-48)

`write` consumes the record; the filesystem effects are reported as a trace:
the resolved metadata directory, the recursive directory creation
(`std::fs::create_dir_all`, for which a pre-existing directory is success),
the lock file path, the reserved history path, and the lock mode
(`FileOptions::new().write(true).create(true).append(false).read(true)` with
blocking acquisition, i.e. an exclusive write lock). -/

structure WriteTrace where
  metadir : List Nat
  createDirAllRecursive : Bool
  lockPath : List Nat
  historyPath : List Nat
  lockIsExclusive : Bool
  lockIsBlocking : Bool
  deriving DecidableEq, Repr

def metadataFileName : List Nat := [46, 109, 101, 116, 97, 100, 97, 116, 97]

def metadataHistoryFileName : List Nat :=
  metadataFileName ++ [46, 104, 105, 115, 116, 111, 114, 121]

def EntryMetaData.write (metadir_path : List Nat → Except Int (List Nat))
    (r : EntryMetaData) : Except Int WriteTrace :=
  match metadir_path (pathJoin r.parent r.name) with
  | .error e => .error e
  | .ok dir =>
    let lockPath := pathJoin dir metadataFileName
    let historyPath := pathJoin lockPath metadataHistoryFileName
    .ok { metadir := dir, createDirAllRecursive := true, lockPath := lockPath,
          historyPath := historyPath, lockIsExclusive := true,
          lockIsBlocking := true }

/-- The `AiFs` BackStore of src/lib.rs 34-48: the metadata directory for a
partial path is `PathBuf::from("/tmp/foo/meta").join(partial)`. -/
def aifs_metadir_path (p : List Nat) : Except Int (List Nat) :=
  .ok (pathJoin [47, 116, 109, 112, 47, 102, 111, 111, 47, 109, 101, 116, 97] p)

/- ### Concrete inputs used by the closed theorems below -/

def stat0 : FileStat :=
  { st_dev := 0, st_ino := 0, st_nlink := 0, st_mode := 0, st_uid := 0,
    st_gid := 0, __pad0 := 0, st_rdev := 0, st_size := 0, st_blksize := 0,
    st_blocks := 0, st_atime := 0, st_atime_nsec := 0, st_mtime := 0,
    st_mtime_nsec := 0, st_ctime := 0, st_ctime_nsec := 0,
    __unused := (0, 0, 0) }

def user0 : Nix.User :=
  { name := [], passwd := [], uid := 0, gid := 0, gecos := [], dir := [],
    shell := [] }

def group0 : Nix.Group := { name := [], passwd := [], gid := 0, mem := [] }

/-- A record whose `name` is the single byte 0xFF, which is not valid UTF-8;
all other fields are benign. -/
def c2rec : EntryMetaData :=
  { name := [255], parent := [], stats := stat0, owner := user0,
    group := group0, timestamp := 0, xattrs := none }

/-- A record whose `name` is the byte pair 0xFE 0x41 — an arbitrary byte
sequence that no text encoding accepts. -/
def c3rec : EntryMetaData :=
  { name := [254, 65], parent := [], stats := stat0, owner := user0,
    group := group0, timestamp := 0, xattrs := none }

/-- A record with a valid-UTF-8 name "a", one xattr pair and an otherwise
benign content, used to exhibit a successful encode/decode round trip. -/
def c3wrec : EntryMetaData :=
  { name := [97], parent := [47, 112], stats := stat0, owner := user0,
    group := group0, timestamp := 1, xattrs := some [([110], [5, 0, 7])] }

def c3wb : List Nat :=
  match EntryMetaData.to_bytes c3wrec with
  | .ok b => b
  | .panicked _ => []

/-- User "masud" with stat uid/gid 1000 and a non-empty credential returned by the
identity database, to exercise the redaction over a real secret. -/
def c4user : Nix.User :=
  { name := [109, 97, 115, 117, 100], passwd := [115, 101, 99, 114, 101, 116],
    uid := 1000, gid := 1000, gecos := [], dir := [47, 104, 111, 109, 101],
    shell := [47, 98, 105, 110] }

def c4group : Nix.Group :=
  { name := [117, 115, 101, 114, 115], passwd := [115, 103], gid := 1000,
    mem := [[109, 97, 115, 117, 100]] }

def stat1000 : FileStat := { stat0 with st_uid := 1000, st_gid := 1000 }

def c4env : SysEnv :=
  { highest_path := fun p => .ok p, stat := fun _ => .ok stat1000,
    from_uid := fun _ => .ok (some c4user),
    from_gid := fun _ => .ok (some c4group),
    listbuf := fun _ => .ok [], xattrValue := fun _ _ => [], now := 7 }

def c4rec : EntryMetaData :=
  { name := [98], parent := [47], stats := stat1000,
    owner := { c4user with passwd := xPlaceholder },
    group := { c4group with passwd := xPlaceholder },
    timestamp := 7, xattrs := none }

def c1env : SysEnv :=
  { highest_path := fun p => .ok p, stat := fun _ => .ok stat1000,
    from_uid := fun _ => .ok (some c4user),
    from_gid := fun _ => .ok (some c4group),
    listbuf := fun _ => .ok [], xattrValue := fun _ _ => [], now := 9 }

def c1rec : EntryMetaData :=
  { name := [97], parent := [47, 112], stats := stat1000,
    owner := { c4user with passwd := xPlaceholder },
    group := { c4group with passwd := xPlaceholder },
    timestamp := 9, xattrs := none }

def c1bytes : List Nat :=
  match EntryMetaData.to_bytes c1rec with
  | .ok b => b
  | .panicked _ => []

/-- Environment whose identity database has no record for the stat's owner
id: `User::from_uid` returns `Ok(None)`. -/
def c5env : SysEnv :=
  { highest_path := fun p => .ok p, stat := fun _ => .ok stat1000,
    from_uid := fun _ => .ok none, from_gid := fun _ => .ok none,
    listbuf := fun _ => .ok [], xattrValue := fun _ _ => [], now := 0 }

def s6 : FileStat :=
  { st_dev := 1, st_ino := 2, st_nlink := 3, st_mode := 420, st_uid := 5,
    st_gid := 6, __pad0 := 7, st_rdev := 8, st_size := 9, st_blksize := 10,
    st_blocks := 11, st_atime := 12, st_atime_nsec := 13, st_mtime := 14,
    st_mtime_nsec := 15, st_ctime := 16, st_ctime_nsec := 17,
    __unused := (18, 19, 20) }

def c6codec : FileStatCodec :=
  { st_dev := 1, st_ino := 2, st_nlink := 3, st_mode := 420, st_uid := 5,
    st_gid := 6, __pad0 := 0, st_rdev := 8, st_size := 9, st_blksize := 10,
    st_blocks := 11, st_atime := 12, st_atime_nsec := 13, st_mtime := 14,
    st_mtime_nsec := 15, st_ctime := 16, st_ctime_nsec := 17,
    __unused := (0, 0, 0) }

/-- Environment of an entry exposing zero extended attributes: the probe
`listxattr` reports size 0. -/
def c7envNone : SysEnv :=
  { highest_path := fun p => .ok p, stat := fun _ => .ok stat0,
    from_uid := fun _ => .ok (some user0),
    from_gid := fun _ => .ok (some group0),
    listbuf := fun _ => .ok [], xattrValue := fun _ _ => [], now := 0 }

/-- Environment of an entry exposing exactly one extended attribute named
"user.test" whose value is empty: the listxattr buffer is the name followed
by its NUL terminator. -/
def c7envOne : SysEnv :=
  { highest_path := fun p => .ok p, stat := fun _ => .ok stat0,
    from_uid := fun _ => .ok (some user0),
    from_gid := fun _ => .ok (some group0),
    listbuf := fun _ => .ok [117, 115, 101, 114, 46, 116, 101, 115, 116, 0],
    xattrValue := fun _ _ => [], now := 0 }

def c8rec : EntryMetaData :=
  { name := [102], parent := [100], stats := stat0, owner := user0,
    group := group0, timestamp := 0, xattrs := none }

def c8dir : List Nat :=
  pathJoin [47, 116, 109, 112, 47, 102, 111, 111, 47, 109, 101, 116, 97]
    (pathJoin [100] [102])

theorem readNat_writeNat (n : Nat) (rest : List Nat) :
    readNat (writeNat n ++ rest) = some (n, rest) := rfl

theorem readInt_writeInt (i : Int) (rest : List Nat) :
    readInt (writeInt i ++ rest) = some (i, rest) := by
  cases i <;> rfl

theorem take_len_append (xs ys : List Nat) : (xs ++ ys).take xs.length = xs := by
  induction xs with
  | nil => simp
  | cons a t ih => simp [ih]

theorem drop_len_append (xs ys : List Nat) : (xs ++ ys).drop xs.length = ys := by
  induction xs with
  | nil => simp
  | cons a t ih => simp [ih]

theorem readBytes_writeBytes (xs rest : List Nat) :
    readBytes (writeBytes xs ++ rest) = some (xs, rest) := by
  simp [writeBytes, readBytes, take_len_append, drop_len_append, Nat.le_add_right]

theorem codecToStat_statToCodec (s : FileStat)
    (h0 : s.__pad0 = 0) (h1 : s.__unused = (0, 0, 0)) :
    codecToStat (statToCodec s) = s := by
  cases s
  simp_all [statToCodec, codecToStat]

theorem readListAux_writeList (l : List (List Nat)) (rest : List Nat) :
    readListAux l.length (writeList l ++ rest) = some (l, rest) := by
  induction l generalizing rest with
  | nil => rfl
  | cons x t ih =>
    simp [writeList, readListAux, List.append_assoc, readBytes_writeBytes, ih]

theorem readList_writeListBytes (l : List (List Nat)) (rest : List Nat) :
    readList (writeListBytes l ++ rest) = some (l, rest) := by
  simp [writeListBytes, readList, readNat, readListAux_writeList]

theorem readPairsAux_writePairs (l : List (List Nat × List Nat)) (rest : List Nat) :
    readPairsAux l.length (writePairs l ++ rest) = some (l, rest) := by
  induction l generalizing rest with
  | nil => rfl
  | cons x t ih =>
    obtain ⟨n, v⟩ := x
    simp [writePairs, readPairsAux, List.append_assoc, readBytes_writeBytes, ih]

theorem readXattrs_writeXattrs (x : Option (List (List Nat × List Nat)))
    (rest : List Nat) :
    readXattrs (writeXattrs x ++ rest) = some (x, rest) := by
  cases x with
  | none => rfl
  | some l => simp [writeXattrs, readXattrs, readPairsAux_writePairs]

theorem readXattrs_writeXattrs_self (x : Option (List (List Nat × List Nat))) :
    readXattrs (writeXattrs x) = some (x, []) := by
  have h := readXattrs_writeXattrs x []
  simpa using h

theorem readInts_writeInts (l : List Int) (rest : List Nat) :
    readInts l.length (writeInts l ++ rest) = some (l, rest) := by
  induction l generalizing rest with
  | nil => rfl
  | cons i t ih =>
    simp [writeInts, readInts, List.append_assoc, readInt_writeInt, ih]

theorem readStatC_writeStatC (c : FileStatCodec) (rest : List Nat) :
    readStatC (writeStatC c ++ rest) = some (c, rest) := by
  have h := readInts_writeInts (statCFields c) rest
  simp only [statCFields, List.length_cons, List.length_nil] at h
  rw [readStatC, writeStatC]
  simp only [statCFields] at h ⊢
  rw [h]
  rfl

theorem readUser_writeUser (u : Nix.User) (rest : List Nat) :
    readUser (writeUser u ++ rest) = some (u, rest) := by
  obtain ⟨n, pw, ui, g, ge, d, sh⟩ := u
  simp only [writeUser, List.append_assoc]
  simp only [readUser, readBytes_writeBytes, readInt_writeInt,
    Option.bind_eq_bind, Option.some_bind]

theorem readGroup_writeGroup (g : Nix.Group) (rest : List Nat) :
    readGroup (writeGroup g ++ rest) = some (g, rest) := by
  obtain ⟨n, pw, gi, m⟩ := g
  simp only [writeGroup, List.append_assoc]
  simp only [readGroup, readBytes_writeBytes, readInt_writeInt,
    readList_writeListBytes, Option.bind_eq_bind, Option.some_bind]

theorem to_bytes_ok (r : EntryMetaData) (b : List Nat)
    (h : EntryMetaData.to_bytes r = .ok b) : serialize_value r = .ok b := by
  unfold EntryMetaData.to_bytes CodecSerializer.encode at h
  split at h
  · simp_all
  · simp_all

theorem decode_serialize_value (r : EntryMetaData) (b : List Nat)
    (h : serialize_value r = .ok b) :
    decodeRecord b =
      some { r with stats := codecToStat (statToCodec r.stats) } := by
  unfold serialize_value at h
  split_ifs at h
  simp only [Except.ok.injEq] at h
  subst h
  simp only [decodeRecord, List.append_assoc, readBytes_writeBytes,
    readStatC_writeStatC, readUser_writeUser, readGroup_writeGroup,
    readNat_writeNat, readXattrs_writeXattrs_self, Option.bind_eq_bind,
    Option.some_bind]

/- ### Helper lemmas shared by the claim theorems -/

theorem new_ok_passwd (env : SysEnv) (p n : List Nat) (r : EntryMetaData)
    (h : EntryMetaData.new env p n = .ok r) :
    r.owner.passwd = xPlaceholder ∧ r.group.passwd = xPlaceholder := by
  unfold EntryMetaData.new at h
  repeat' split at h
  all_goals simp_all
  subst h
  exact ⟨rfl, rfl⟩

theorem takeUntilZero_take (v : List Nat) :
    takeUntilZero v = v.take (takeUntilZero v).length := by
  induction v with
  | nil => rfl
  | cons b r ih =>
    cases b with
    | zero => rfl
    | succ k =>
      show (k + 1) :: takeUntilZero r =
        ((k + 1) :: r).take ((k + 1) :: takeUntilZero r).length
      simp only [List.length_cons, List.take_succ_cons]
      exact congrArg _ ih

theorem takeUntilZero_ne (v : List Nat) (h : 0 ∈ v) : takeUntilZero v ≠ v := by
  induction v with
  | nil => cases h
  | cons b r ih =>
    cases b with
    | zero => simp [takeUntilZero]
    | succ k =>
      have hr : 0 ∈ r := by
        rcases List.mem_cons.mp h with h1 | h1
        · cases h1
        · exact h1
      simp only [takeUntilZero, ne_eq, List.cons.injEq, true_and]
      exact ih hr

/- ### Claim theorems -/

/-- Claim C1: for every record `r` successfully built by `EntryMetaData::new`
(whose stat reserved fields are the zeros the kernel fills them with),
whenever `to_bytes(r)` produces a buffer, decoding that buffer reproduces
every field of `r` value-for-value, and the owner and group credential fields
of the decoded record equal the fixed placeholder. -/
theorem new_record_roundtrips (env : SysEnv) (p n : List Nat)
    (r : EntryMetaData) (b : List Nat)
    (hnew : EntryMetaData.new env p n = .ok r)
    (hp0 : r.stats.__pad0 = 0) (hp1 : r.stats.__unused = (0, 0, 0))
    (henc : EntryMetaData.to_bytes r = .ok b) :
    decodeRecord b = some r ∧
    r.owner.passwd = xPlaceholder ∧ r.group.passwd = xPlaceholder := by
  have hs := to_bytes_ok r b henc
  have hd := decode_serialize_value r b hs
  have hst : codecToStat (statToCodec r.stats) = r.stats :=
    codecToStat_statToCodec r.stats hp0 hp1
  rw [hst] at hd
  exact ⟨hd, new_ok_passwd env p n r hnew⟩

theorem new_record_roundtrips_witness :
    EntryMetaData.new c1env [47, 112] [97] = .ok c1rec ∧
    EntryMetaData.to_bytes c1rec = .ok c1bytes ∧
    (decodeRecord c1bytes = some c1rec ∧
     c1rec.owner.passwd = xPlaceholder ∧ c1rec.group.passwd = xPlaceholder) :=
  ⟨by decide, by decide,
   new_record_roundtrips c1env [47, 112] [97] c1rec c1bytes (by decide)
     (by decide) (by decide) (by decide)⟩

/-- Claim C2: the claim says an encoding failure is returned to the caller as
an error value of the two-variant error type.  The code disagrees: on the
record `c2rec` (name = 0xFF, not valid UTF-8) `serialize_value` fails with
`AsStringError`, and `CodecSerializer::encode` (src/codec.rs 49) `.unwrap()`s
that error, aborting the process instead of returning it. -/
theorem encode_unwraps_serialize_error :
    serialize_value c2rec = .error .AsStringError ∧
    CodecSerializer.encode c2rec = .panicked .AsStringError := by
  constructor
  · rfl
  · rfl

/-- Claim C3 counterexample: a record whose name is the arbitrary (non-UTF-8)
byte sequence 0xFE 0x41 does not round-trip: encoding produces no buffer at
all — the `AsString` conversion fails and the unwrap aborts. -/
theorem nonUtf8_name_never_encodes :
    EntryMetaData.to_bytes c3rec = .panicked .AsStringError := by
  rfl

/-- Claim C3 as amended: a name that is valid UTF-8 round-trips byte-for-byte
through encode/decode; a name that is not valid UTF-8 makes the encode call
fail with the text-conversion error (surfaced as a process abort by the
unwrap), so no buffer is produced for it. -/
theorem utf8_name_roundtrip (r : EntryMetaData) (b : List Nat) :
    (utf8Valid r.name = false →
      EntryMetaData.to_bytes r = .panicked .AsStringError) ∧
    (EntryMetaData.to_bytes r = .ok b →
      (decodeRecord b).map EntryMetaData.name = some r.name) := by
  constructor
  · intro h
    unfold EntryMetaData.to_bytes CodecSerializer.encode serialize_value
    simp [h]
  · intro h
    have hs := to_bytes_ok r b h
    have hd := decode_serialize_value r b hs
    rw [hd]
    rfl

theorem utf8_name_roundtrip_witness :
    (decodeRecord c3wb).map EntryMetaData.name = some c3wrec.name :=
  (utf8_name_roundtrip c3wrec c3wb).2 (by decide)

/-- Claim C4: every record returned by `EntryMetaData::new` carries the fixed
placeholder in both credential fields, unconditionally. -/
theorem new_redacts_credentials (env : SysEnv) (p n : List Nat)
    (r : EntryMetaData) (h : EntryMetaData.new env p n = .ok r) :
    r.owner.passwd = xPlaceholder ∧ r.group.passwd = xPlaceholder :=
  new_ok_passwd env p n r h

theorem new_redacts_credentials_witness :
    EntryMetaData.new c4env [47] [98] = .ok c4rec ∧
    c4user.passwd = [115, 101, 99, 114, 101, 116] ∧
    (c4rec.owner.passwd = xPlaceholder ∧ c4rec.group.passwd = xPlaceholder) :=
  ⟨by decide, by decide,
   new_redacts_credentials c4env [47] [98] c4rec (by decide)⟩

/-- Claim C5: the claim says an identity-lookup miss yields a synthesized
placeholder record rather than a failure.  In the code the placeholder
construction runs `CString::from_raw(ptr::null_mut())` for the `passwd` and
`gecos` fields (src/meta.rs 90, 94), and `CString::from_raw` runs `strlen` on
its argument — on NULL that is undefined behavior, so the capture does not
return the placeholder record. -/
theorem unknown_uid_is_undefined_behavior :
    EntryMetaData.new c5env [47] [99] = .ub := by
  rfl

/-- Claim C6: the normalized stat shape mirrors every native field
field-for-field with the reserved fields synthesized as zero, and for a
normalized value whose reserved fields are zero the reverse conversion
rebuilds the native record having exactly the normalized non-padding fields
and zero padding. -/
theorem filestat_codec_mirror (s : FileStat) (c : FileStatCodec)
    (h0 : c.__pad0 = 0) (h1 : c.__unused = (0, 0, 0)) :
    statToCodec s =
      { st_dev := s.st_dev, st_ino := s.st_ino, st_nlink := s.st_nlink,
        st_mode := s.st_mode, st_uid := s.st_uid, st_gid := s.st_gid,
        __pad0 := 0, st_rdev := s.st_rdev, st_size := s.st_size,
        st_blksize := s.st_blksize, st_blocks := s.st_blocks,
        st_atime := s.st_atime, st_atime_nsec := s.st_atime_nsec,
        st_mtime := s.st_mtime, st_mtime_nsec := s.st_mtime_nsec,
        st_ctime := s.st_ctime, st_ctime_nsec := s.st_ctime_nsec,
        __unused := (0, 0, 0) } ∧
    codecToStat (statToCodec s) = { s with __pad0 := 0, __unused := (0, 0, 0) } ∧
    codecToStat c =
      { st_dev := c.st_dev, st_ino := c.st_ino, st_nlink := c.st_nlink,
        st_mode := c.st_mode, st_uid := c.st_uid, st_gid := c.st_gid,
        __pad0 := 0, st_rdev := c.st_rdev, st_size := c.st_size,
        st_blksize := c.st_blksize, st_blocks := c.st_blocks,
        st_atime := c.st_atime, st_atime_nsec := c.st_atime_nsec,
        st_mtime := c.st_mtime, st_mtime_nsec := c.st_mtime_nsec,
        st_ctime := c.st_ctime, st_ctime_nsec := c.st_ctime_nsec,
        __unused := (0, 0, 0) } := by
  refine ⟨rfl, rfl, ?_⟩
  simp [codecToStat, h0, h1]

theorem filestat_codec_mirror_witness :
    codecToStat (statToCodec s6) = { s6 with __pad0 := 0, __unused := (0, 0, 0) } :=
  (filestat_codec_mirror s6 c6codec rfl rfl).2.1

/-- Claim C7: the zero-attribute entry does yield `xattrs = None`, but the
one-attribute entry does not yield `Some([(name, [])])`: every piece produced
by splitting the name buffer on NUL lacks the trailing NUL that
`CString::from_vec_with_nul` requires, so every name is dropped and the code
yields `Some([])` instead. -/
theorem one_xattr_yields_empty_list :
    captureXattrs c7envNone [47] = none ∧
    captureXattrs c7envOne [47] = some [] ∧
    captureXattrs c7envOne [47] ≠
      some [([117, 115, 101, 114, 46, 116, 101, 115, 116], [])] := by
  refine ⟨rfl, by decide, by decide⟩

/-- Claim C8: `write` resolves the metadata directory, creates it recursively
(pre-existing is not an error), and locks the `.metadata` file inside it with
a blocking exclusive lock — all as claimed — but the `.metadata.history` path
is computed by joining onto the `.metadata` lock-file path (src/meta.rs 164
joins onto the shadowed `path`), so it is a child of the lock file, not a
sibling in the metadata directory. -/
theorem write_history_path_not_sibling :
    EntryMetaData.write aifs_metadir_path c8rec = .ok
      { metadir := c8dir, createDirAllRecursive := true,
        lockPath := pathJoin c8dir metadataFileName,
        historyPath :=
          pathJoin (pathJoin c8dir metadataFileName) metadataHistoryFileName,
        lockIsExclusive := true, lockIsBlocking := true } ∧
    pathJoin (pathJoin c8dir metadataFileName) metadataHistoryFileName ≠
      pathJoin c8dir metadataHistoryFileName := by
  refine ⟨rfl, by decide⟩

/-- Claim C10: `getxattr` reads the attribute through a fixed PATH_MAX-sized
zeroed buffer and returns the bytes before the first NUL; for a value with an
interior zero byte, or longer than PATH_MAX, the value stored in the captured
record (`unwrap_or(vec![])`) is a truncated strict prefix of the raw value,
never the raw value itself. -/
theorem getxattr_truncates (p n v : List Nat)
    (hp : ¬ 0 ∈ p) (hn : ¬ 0 ∈ n)
    (hv : 0 ∈ v ∨ PATH_MAX < v.length) :
    storedOf (getxattrW p n v) =
      v.take (storedOf (getxattrW p n v)).length ∧
    storedOf (getxattrW p n v) ≠ v := by
  unfold getxattrW
  rw [if_neg hp, if_neg hn]
  by_cases hl : PATH_MAX < v.length
  · rw [if_pos hl]
    have hne : v ≠ [] := by
      intro hv0
      rw [hv0] at hl
      simp [PATH_MAX] at hl
    refine ⟨by simp [storedOf], ?_⟩
    simp only [storedOf]
    intro hcontra
    exact hne hcontra.symm
  · rw [if_neg hl]
    have hz : 0 ∈ v := hv.resolve_right hl
    rw [if_neg (by exact fun hc => hc.2 hz)]
    exact ⟨takeUntilZero_take v, takeUntilZero_ne v hz⟩

theorem getxattr_truncates_witness :
    storedOf (getxattrW [112] [110] [1, 0, 2]) =
      [1, 0, 2].take (storedOf (getxattrW [112] [110] [1, 0, 2])).length ∧
    storedOf (getxattrW [112] [110] [1, 0, 2]) ≠ [1, 0, 2] :=
  getxattr_truncates [112] [110] [1, 0, 2] (by decide) (by decide)
    (Or.inl (by decide))
